import Mathlib

/-!
Shallow embedding of the core usage-fetch pipeline of the claude-usage
VS Code extension (src/extension.ts), together with theorems settling the
frozen claims about it.

Modelling conventions:
* JavaScript strings are Lean Strings (lists of characters); the
  UTF-16 subtleties of substring/slice are irrelevant for the
  material here and character-based truncation is used.
* String.prototype.trim is modelled by jsTrim, which strips the
  common JavaScript whitespace characters from both ends.
* String.prototype.includes is modelled by jsIncludes (substring
  containment), and split(sep).length for a one-character separator by
  splitOnChar (which matches JavaScript's semantics for single-character
  separators: the number of parts is the number of separators plus one).
* Network effects are modelled by passing the observable outcome of each
  transport attempt (status + parsed body, or a thrown error message) as
  an explicit input; the mutable module-level cookie cache is modelled by
  explicit state passing.
-/

/-! ## JavaScript string primitives -/

/-- Whitespace recognised by JavaScript's String.prototype.trim
(the characters that occur in practice: space, tab, LF, VT, FF, CR,
NBSP, BOM, line separator, paragraph separator). -/
def jsIsWhitespace (c : Char) : Bool :=
  c = ' ' || c = '\t' || c = '\n' || c = '\x0d' ||
  c = '\x0b' || c = '\x0c' || c = '\u00A0' || c = '\uFEFF' ||
  c = '\u2028' || c = '\u2029'

/-- List-level both-ends trim: drop leading whitespace, then drop trailing
whitespace (implemented by reversing, dropping, reversing back). -/
def trimList (l : List Char) : List Char :=
  ((l.dropWhile jsIsWhitespace).reverse.dropWhile jsIsWhitespace).reverse

/-- Model of JavaScript s.trim(). -/
def jsTrim (s : String) : String :=
  String.mk (trimList s.data)

/-- Model of JavaScript s.includes(pat): substring containment. -/
def jsIncludes (s pat : String) : Bool :=
  decide (pat.data <:+: s.data)

/-- Model of JavaScript s.split(sep) for a one-character separator:
the resulting list of parts (JS guarantees parts.length = number of separators + 1
for a single-character separator). -/
def splitOnChar (sep : Char) : List Char → List (List Char)
  | [] => [[]]
  | c :: rest =>
    if c = sep then [] :: splitOnChar sep rest
    else
      match splitOnChar sep rest with
      | [] => [[c]]
      | h :: t => (c :: h) :: t

/-- Model of JavaScript s.substring(0, n) (also s.slice(0, n) for
nonnegative n): the first n characters. -/
def jsSubstring (s : String) (n : Nat) : String :=
  String.mk (s.data.take n)

/-! ## Constants (src/extension.ts lines 14-19) -/

def CF_BM_COOKIE_CACHE_TTL_MS : Nat := 5 * 60 * 1000

def REQUEST_TIMEOUT_MS : Nat := 10000

def ERROR_MESSAGE_MAX_LENGTH : Nat := 200

def ERROR_DETAILS_MAX_LENGTH : Nat := 500

/-! ## Credential formatter (src/extension.ts lines 35-41)

```ts
function formatSessionKeyCookie(sessionKey: string): string {
  const trimmed = sessionKey.trim();
  if (!trimmed.includes(";") && trimmed.split("=").length <= 2) {
    return `sessionKey=${trimmed}`;
  }
  return trimmed;
}
```
-/

def formatSessionKeyCookie (sessionKey : String) : String :=
  let trimmed := jsTrim sessionKey
  if !(jsIncludes trimmed ";") && decide ((splitOnChar '=' trimmed.data).length ≤ 2) then
    "sessionKey=" ++ trimmed
  else trimmed

/-! ## Basic list lemmas -/

theorem splitOnChar_length (sep : Char) (l : List Char) :
    (splitOnChar sep l).length = l.count sep + 1 := by
  induction l with
  | nil => simp [splitOnChar]
  | cons c rest ih =>
    by_cases h : c = sep
    · subst h
      simp [splitOnChar, List.count_cons, ih]
    · rw [splitOnChar]
      simp only [if_neg h]
      rcases hs : splitOnChar sep rest with _ | ⟨hd, tl⟩
      · rw [hs] at ih; simp at ih
      · rw [hs] at ih
        simp only [List.length_cons] at ih ⊢
        rw [List.count_cons]
        simp [h]
        omega

theorem singleton_isInfix_iff (a : Char) (l : List Char) :
    [a] <:+: l ↔ a ∈ l := by
  constructor
  · rintro ⟨s, t, rfl⟩
    simp
  · intro h
    rcases List.append_of_mem h with ⟨s, t, rfl⟩
    exact ⟨s, t, by simp⟩

theorem jsIncludes_semicolon (s : String) :
    jsIncludes s ";" = true ↔ ';' ∈ s.data := by
  unfold jsIncludes
  rw [decide_eq_true_iff]
  have : (";" : String).data = [';'] := rfl
  rw [this, singleton_isInfix_iff]

theorem dropWhile_head_false (p : Char → Bool) (l t : List Char) (c : Char)
    (h : l.dropWhile p = c :: t) : p c = false := by
  induction l with
  | nil => simp [List.dropWhile] at h
  | cons a l ih =>
    rw [List.dropWhile_cons] at h
    split at h
    · exact ih h
    · next hp =>
        injection h with h1 _
        subst h1
        simpa using hp

theorem dropWhile_dropWhile_eq (p : Char → Bool) (l : List Char) :
    (l.dropWhile p).dropWhile p = l.dropWhile p := by
  rcases h : l.dropWhile p with _ | ⟨c, t⟩
  · simp
  · rw [List.dropWhile_cons]
    simp [dropWhile_head_false p l t c h]

theorem trimList_reverse_eq (l : List Char) :
    (trimList l).reverse = (l.dropWhile jsIsWhitespace).reverse.dropWhile jsIsWhitespace := by
  unfold trimList
  rw [List.reverse_reverse]

theorem trimList_isPrefix (l : List Char) :
    trimList l <+: l.dropWhile jsIsWhitespace := by
  rcases List.dropWhile_suffix (l := (l.dropWhile jsIsWhitespace).reverse) jsIsWhitespace
    with ⟨s, hs⟩
  refine ⟨s.reverse, ?_⟩
  unfold trimList
  rw [← List.reverse_append, hs, List.reverse_reverse]

theorem trimList_dropWhile (l : List Char) :
    (trimList l).dropWhile jsIsWhitespace = trimList l := by
  rcases h : trimList l with _ | ⟨c, t⟩
  · simp
  · have hpre := trimList_isPrefix l
    rw [h] at hpre
    rcases hpre with ⟨u, hu⟩
    have hc : jsIsWhitespace c = false := by
      apply dropWhile_head_false jsIsWhitespace l (t ++ u) c
      simpa using hu.symm
    rw [List.dropWhile_cons]
    simp [hc]

theorem trimList_reverse_dropWhile (l : List Char) :
    (trimList l).reverse.dropWhile jsIsWhitespace = (trimList l).reverse := by
  rw [trimList_reverse_eq]
  exact dropWhile_dropWhile_eq _ _

theorem trimList_idem (l : List Char) : trimList (trimList l) = trimList l := by
  show (((trimList l).dropWhile jsIsWhitespace).reverse.dropWhile jsIsWhitespace).reverse = trimList l
  rw [trimList_dropWhile, trimList_reverse_dropWhile, List.reverse_reverse]

theorem jsTrim_jsTrim (s : String) : jsTrim (jsTrim s) = jsTrim s := by
  show String.mk (trimList (trimList s.data)) = String.mk (trimList s.data)
  rw [trimList_idem]

theorem jsTrim_data (s : String) : (jsTrim s).data = trimList s.data := rfl

theorem string_data_append (s t : String) : (s ++ t).data = s.data ++ t.data := rfl

/-- The source-level branch test of formatSessionKeyCookie, re-expressed
through character membership and occurrence counts. -/
theorem formatSessionKeyCookie_eq (s : String) :
    formatSessionKeyCookie s =
      if ';' ∉ (jsTrim s).data ∧ (jsTrim s).data.count '=' ≤ 1 then
        "sessionKey=" ++ jsTrim s
      else jsTrim s := by
  show (if (!jsIncludes (jsTrim s) ";" &&
        decide ((splitOnChar '=' (jsTrim s).data).length ≤ 2)) = true then
      "sessionKey=" ++ jsTrim s
    else jsTrim s) =
    if ';' ∉ (jsTrim s).data ∧ (jsTrim s).data.count '=' ≤ 1 then
      "sessionKey=" ++ jsTrim s
    else jsTrim s
  rw [splitOnChar_length]
  by_cases h1 : ';' ∈ (jsTrim s).data
  · have hji : jsIncludes (jsTrim s) ";" = true := (jsIncludes_semicolon _).mpr h1
    simp [hji, h1]
  · have hji : jsIncludes (jsTrim s) ";" = false := by
      rcases Bool.eq_false_or_eq_true (jsIncludes (jsTrim s) ";") with ht | hf
      · exact absurd ((jsIncludes_semicolon _).mp ht) h1
      · exact hf
    by_cases h2 : (jsTrim s).data.count '=' ≤ 1
    · have : (jsTrim s).data.count '=' + 1 ≤ 2 := by omega
      simp [hji, h1, h2, this]
    · have : ¬ ((jsTrim s).data.count '=' + 1 ≤ 2) := by omega
      simp [hji, h1, h2, this]

theorem trimList_wrap (td : List Char) (htt : trimList td = td) (htd : td ≠ []) :
    trimList (("sessionKey=" : String).data ++ td) = ("sessionKey=" : String).data ++ td := by
  have hcons : ("sessionKey=" : String).data ++ td = 's' :: (("essionKey=" : String).data ++ td) := by
    have h0 : ("sessionKey=" : String).data = 's' :: ("essionKey=" : String).data := by decide
    rw [h0]
    rfl
  have hfront : List.dropWhile jsIsWhitespace (("sessionKey=" : String).data ++ td)
      = ("sessionKey=" : String).data ++ td := by
    rw [hcons, List.dropWhile_cons_of_neg (by decide)]
  rcases hr : td.reverse with _ | ⟨c, t'⟩
  · exact absurd (by simpa using hr) htd
  · have hc : jsIsWhitespace c = false := by
      apply dropWhile_head_false jsIsWhitespace ((td.dropWhile jsIsWhitespace).reverse) t' c
      rw [← trimList_reverse_eq, htt, hr]
    have hback : List.dropWhile jsIsWhitespace ((("sessionKey=" : String).data ++ td).reverse)
        = (("sessionKey=" : String).data ++ td).reverse := by
      rw [List.reverse_append, hr]
      show List.dropWhile jsIsWhitespace (c :: (t' ++ (("sessionKey=" : String).data).reverse)) = _
      rw [List.dropWhile_cons_of_neg (by simp [hc]), List.cons_append]
    unfold trimList
    rw [hfront, hback, List.reverse_reverse]

theorem format_wrap_fixed (t : String) (htr : jsTrim t = t)
    (hc1 : t.data.count '=' = 1) :
    formatSessionKeyCookie ("sessionKey=" ++ t) = "sessionKey=" ++ t := by
  have htt : trimList t.data = t.data := congrArg String.data htr
  have htd : t.data ≠ [] := by
    intro hnil
    rw [hnil] at hc1
    simp at hc1
  have htrim : jsTrim ("sessionKey=" ++ t) = "sessionKey=" ++ t := by
    show String.mk (trimList (("sessionKey=" ++ t).data)) = "sessionKey=" ++ t
    rw [string_data_append, trimList_wrap t.data htt htd, ← string_data_append]
  have hcount : ("sessionKey=" ++ t).data.count '=' = 2 := by
    rw [string_data_append, List.count_append]
    have h1 : (("sessionKey=" : String).data).count '=' = 1 := by decide
    rw [h1, hc1]
  have hnot : ¬ (';' ∉ ("sessionKey=" ++ t).data ∧ ("sessionKey=" ++ t).data.count '=' ≤ 1) := by
    rintro ⟨-, hle⟩
    rw [hcount] at hle
    omega
  rw [formatSessionKeyCookie_eq, htrim, if_neg hnot]

/-- C3 counterexample: formatSessionKeyCookie is not idempotent. On the bare
token "abc" (no semicolon, no equals sign) a first application yields
"sessionKey=abc", and a second application wraps again, yielding
"sessionKey=sessionKey=abc". -/
theorem C3_format_idempotent_counterexample :
    formatSessionKeyCookie (formatSessionKeyCookie "abc") ≠ formatSessionKeyCookie "abc" ∧
    formatSessionKeyCookie "abc" = "sessionKey=abc" ∧
    formatSessionKeyCookie (formatSessionKeyCookie "abc") = "sessionKey=sessionKey=abc" := by
  decide

/-- C3 (amended): formatSessionKeyCookie is idempotent on every input whose
trimmed form contains a semicolon or at least one equals sign; only for a
trimmed bare token with no equals sign at all does a second application wrap
again (the counterexample above). -/
theorem C3_format_idempotent_amended (s : String)
    (h : ';' ∈ (jsTrim s).data ∨ '=' ∈ (jsTrim s).data) :
    formatSessionKeyCookie (formatSessionKeyCookie s) = formatSessionKeyCookie s := by
  by_cases hcond : ';' ∉ (jsTrim s).data ∧ (jsTrim s).data.count '=' ≤ 1
  · obtain ⟨hns, hle⟩ := hcond
    have hmem : '=' ∈ (jsTrim s).data := by
      rcases h with h | h
      · exact absurd h hns
      · exact h
    have hpos : 1 ≤ (jsTrim s).data.count '=' := List.one_le_count_iff.mpr hmem
    have hc1 : (jsTrim s).data.count '=' = 1 := by omega
    have hfmt : formatSessionKeyCookie s = "sessionKey=" ++ jsTrim s := by
      rw [formatSessionKeyCookie_eq, if_pos ⟨hns, hle⟩]
    rw [hfmt]
    exact format_wrap_fixed (jsTrim s) (jsTrim_jsTrim s) hc1
  · have hfmt : formatSessionKeyCookie s = jsTrim s := by
      rw [formatSessionKeyCookie_eq, if_neg hcond]
    rw [hfmt]
    rw [formatSessionKeyCookie_eq, jsTrim_jsTrim, if_neg hcond]

/-- Witness for the amended C3 theorem at the concrete input "a=b". -/
theorem C3_format_idempotent_amended_witness :
    formatSessionKeyCookie (formatSessionKeyCookie "a=b") = formatSessionKeyCookie "a=b" :=
  C3_format_idempotent_amended "a=b" (Or.inr (by decide))

/-- C4: formatSessionKeyCookie trims its input; if the trimmed string contains
no semicolon and at most one equals sign it returns "sessionKey=" prepended to
the trimmed string, and otherwise it returns the trimmed string unchanged. As a
Lean function it is pure and total by construction (it never fails), and it
yields a non-empty string for every input whose trimmed form is non-empty. -/
theorem C4_formatSessionKeyCookie_contract (s : String) :
    (';' ∉ (jsTrim s).data → (jsTrim s).data.count '=' ≤ 1 →
       formatSessionKeyCookie s = "sessionKey=" ++ jsTrim s)
  ∧ (';' ∈ (jsTrim s).data ∨ 2 ≤ (jsTrim s).data.count '=' →
       formatSessionKeyCookie s = jsTrim s)
  ∧ (jsTrim s ≠ "" → formatSessionKeyCookie s ≠ "") := by
  refine ⟨?_, ?_, ?_⟩
  · intro h1 h2
    rw [formatSessionKeyCookie_eq, if_pos ⟨h1, h2⟩]
  · intro h
    rw [formatSessionKeyCookie_eq, if_neg]
    rintro ⟨hn, hcnt⟩
    rcases h with hm | hcount
    · exact hn hm
    · omega
  · intro hne
    rw [formatSessionKeyCookie_eq]
    split
    · intro hcontra
      have hd := congrArg String.data hcontra
      rw [string_data_append] at hd
      have hlen := congrArg List.length hd
      rw [List.length_append] at hlen
      have h11 : (("sessionKey=" : String).data).length = 11 := by decide
      rw [h11] at hlen
      simp at hlen
    · exact hne

/-- Witness for C4 at the concrete input " sk-test " (leading and trailing
blanks, no semicolon, no equals sign). -/
theorem C4_formatSessionKeyCookie_contract_witness :
    formatSessionKeyCookie " sk-test " = "sessionKey=" ++ jsTrim " sk-test " ∧
    formatSessionKeyCookie " sk-test " ≠ "" :=
  ⟨(C4_formatSessionKeyCookie_contract " sk-test ").1 (by decide) (by decide),
   (C4_formatSessionKeyCookie_contract " sk-test ").2.2 (by decide)⟩

/-! ## JavaScript numeric and JSON value model -/

/-- JavaScript number: a finite value (modelled as a rational) or one of the
non-finite values NaN, Infinity, -Infinity. -/
inductive JsNum
  | finite (q : ℚ)
  | nan
  | inf
  | negInf
deriving DecidableEq

/-- JavaScript value, as far as the usage-response shape check needs it.
The obj constructor stands for any object or array value (truthy, not of
type number, not a string). -/
inductive JsVal
  | undef
  | null
  | boolean (b : Bool)
  | number (n : JsNum)
  | str (s : String)
  | obj
deriving DecidableEq

/-- JavaScript truthiness of a value. -/
def truthy : JsVal → Bool
  | .undef => false
  | .null => false
  | .boolean b => b
  | .number (.finite q) => decide (q ≠ 0)
  | .number .nan => false
  | .number .inf => true
  | .number .negInf => true
  | .str s => decide (s ≠ "")
  | .obj => true

/-- JavaScript test: typeof v === "number" (NaN and the infinities are of
type number). -/
def isNumberType : JsVal → Bool
  | .number _ => true
  | _ => false

/-- JavaScript test: Number.isFinite(v) after requiring v to be a number. -/
def isFiniteNumber : JsVal → Bool
  | .number (.finite _) => true
  | _ => false

/-- The five_hour object of a parsed usage response (src/extension.ts
lines 5-9); both fields can hold arbitrary JSON values. -/
structure FiveHour where
  utilization : JsVal
  resets_at : JsVal
deriving DecidableEq

/-- Parsed JSON body of a usage response (src/extension.ts lines 5-9).
five_hour is none when the field is absent, null or otherwise falsy;
seven_day is uninterpreted pass-through. -/
structure UsageResponse where
  five_hour : Option FiveHour
  seven_day : JsVal
deriving DecidableEq

/-- clampPercent (src/extension.ts lines 520-523): 0 for a non-finite
number, otherwise Math.round clamped into [0, 100]. JavaScript Math.round
is floor of n + 1/2 (ties go toward positive infinity). -/
def clampPercent : JsNum → Int
  | .finite q => max 0 (min 100 ⌊q + 1 / 2⌋)
  | _ => 0

/-- The caller-facing shape check of refreshAndRender (src/extension.ts
lines 348-354): the payload is rendered only when five_hour is truthy,
five_hour.utilization has JavaScript type number, and five_hour.resets_at
is truthy; otherwise the distinguished "unexpected shape" rendering is
shown. From: if (!five || typeof five.utilization !== "number" || !five.resets_at). -/
def usableShape (data : UsageResponse) : Bool :=
  match data.five_hour with
  | none => false
  | some five => isNumberType five.utilization && truthy five.resets_at

/-! ## Request dispatcher (fetchUsage, src/extension.ts lines 400-518) -/

/-- getStandardHeaders (src/extension.ts lines 22-32). -/
def getStandardHeaders (cookieValue : String) : List (String × String) :=
  [("Cookie", cookieValue),
   ("User-Agent", "Mozilla/5.0 (Windows NT 10.0; Win64; x64) AppleWebKit/537.36 (KHTML, like Gecko) Chrome/120.0.0.0 Safari/537.36"),
   ("Accept", "*/*"),
   ("Accept-Language", "en-US,en;q=0.9"),
   ("Accept-Encoding", "gzip, deflate, br"),
   ("Cache-Control", "no-cache"),
   ("Connection", "keep-alive")]

/-- The bot-challenge classifier applied to a failure message (the marker
test of src/extension.ts lines 484-485, reused at lines 504-505). -/
def isBotChallenge (msg : String) : Bool :=
  jsIncludes msg "Just a moment" || jsIncludes msg "cf-browser-verification" ||
  jsIncludes msg "challenge-platform" || jsIncludes msg "403"

/-- Observable outcome of one transport strategy attempt.
httpResponse: a response was received and its body handled; status is the
HTTP status, excerpt the raw body text used for the error message, data the
JSON-parsed body. netError: the attempt threw before producing a usable
response (network failure, abort, JSON parse failure), with the thrown
error's message. -/
inductive MethodOutcome
  | httpResponse (status : Nat) (excerpt : String) (data : UsageResponse)
  | netError (msg : String)
deriving DecidableEq

/-- Shared shape of the three strategy bodies (methods 1-3, src/extension.ts
lines 417-471): a status in [200, 300) returns the parsed data; any other
status throws "HTTP {status}: {excerpt truncated to ERROR_MESSAGE_MAX_LENGTH}". -/
def runMethod : MethodOutcome → Except String UsageResponse
  | .httpResponse status excerpt data =>
    if 200 ≤ status ∧ status < 300 then .ok data
    else .error ("HTTP " ++ toString status ++ ": " ++
      jsSubstring excerpt ERROR_MESSAGE_MAX_LENGTH)
  | .netError msg => .error msg

/-- Outcome of the whole dispatcher: Success carries the parsed body
returned by fetchUsage, Failure the message of the error thrown across the
fetchUsage boundary. -/
inductive FetchOutcome
  | success (data : UsageResponse)
  | failure (msg : String)
deriving DecidableEq

/-- The Cloudflare remediation block appended on bot-challenge exhaustion
(src/extension.ts lines 506-512). -/
def CLOUDFLARE_HELP : String :=
  "\n\n⚠️ Cloudflare bot protection detected.\n\n" ++
  "This is a known limitation - Cloudflare blocks automated requests based on TLS fingerprinting.\n" ++
  "Postman works because it uses a different HTTP client (libcurl) that Cloudflare trusts.\n\n" ++
  "Possible solutions:\n" ++
  "1. Use a fresh Cookie header from Postman (__cf_bm cookie expires quickly)\n" ++
  "2. Use a proxy service that can handle Cloudflare challenges\n" ++
  "3. Contact Claude.ai to request API access or whitelisting"

/-- Synthesis of the single final error after all strategies are exhausted
(src/extension.ts lines 499-517): the last error's message (or "Unknown
error" when absent or empty), followed by the remediation block when that
message matches the bot-challenge markers, and otherwise by a truncated
(at most ERROR_DETAILS_MAX_LENGTH characters) copy of the raw detail. -/
def synthFinalError (lastError : Option String) : String :=
  let errorMsg := match lastError with
    | some m => if m = "" then "Unknown error" else m
    | none => "Unknown error"
  let errorBody :=
    if isBotChallenge errorMsg then CLOUDFLARE_HELP
    else jsSubstring errorMsg ERROR_DETAILS_MAX_LENGTH
  errorMsg ++ errorBody

/-- The fallback loop of fetchUsage (src/extension.ts lines 474-497) plus
the exhaustion synthesis (lines 499-517), over the per-strategy results in
order. Also returns how many strategies were invoked, so that the claims
about invocation order and non-reinvocation can be stated. A failure whose
message matches the bot-challenge markers, or does not even contain "HTTP",
moves on to the next strategy; any other failure is rethrown at once. -/
def dispatchLoop : List (Except String UsageResponse) → Option String → FetchOutcome × Nat
  | [], lastError => (.failure (synthFinalError lastError), 0)
  | .ok data :: _, _ => (.success data, 1)
  | .error msg :: rest, _ =>
    if isBotChallenge msg then
      let r := dispatchLoop rest (some msg)
      (r.1, r.2 + 1)
    else if !(jsIncludes msg "HTTP") then
      let r := dispatchLoop rest (some msg)
      (r.1, r.2 + 1)
    else (.failure msg, 1)

/-- fetchUsage (src/extension.ts lines 400-518). The cookie value is
assembled from the acquired mitigation cookie (when present) and the
formatted credential, and feeds the request headers of every attempt; the
observable outcomes of the three transport strategies, in source order
(native fetch, then undici, then axios), are supplied as inputs. -/
def fetchUsageModel (sessionKey : String) (cfBm : Option String)
    (outcomes : List MethodOutcome) : FetchOutcome × Nat :=
  let sessionKeyCookie := formatSessionKeyCookie sessionKey
  let cookieValue := match cfBm with
    | some c => c ++ "; " ++ sessionKeyCookie
    | none => sessionKeyCookie
  let standardHeaders := getStandardHeaders cookieValue
  dispatchLoop (outcomes.map runMethod) none

/-- safeErrorMessage (src/extension.ts lines 530-533): the thrown error's
message when it is a string, else "Unknown error", truncated to
ERROR_MESSAGE_MAX_LENGTH characters. -/
def safeErrorMessage (message : Option String) : String :=
  match message with
  | some m => jsSubstring m ERROR_MESSAGE_MAX_LENGTH
  | none => jsSubstring "Unknown error" ERROR_MESSAGE_MAX_LENGTH

theorem dispatchLoop_count_le (rs : List (Except String UsageResponse)) (le : Option String) :
    (dispatchLoop rs le).2 ≤ rs.length := by
  induction rs generalizing le with
  | nil => simp [dispatchLoop]
  | cons r rest ih =>
    cases r with
    | ok d => simp [dispatchLoop]
    | error m =>
      rw [dispatchLoop]
      by_cases hb : isBotChallenge m
      · simp only [if_pos hb]
        have := ih (some m)
        simp only [List.length_cons]
        omega
      · by_cases hh : jsIncludes m "HTTP"
        · simp only [if_neg hb, hh, Bool.not_true, Bool.false_eq_true, if_false]
          simp
        · simp only [if_neg hb, hh, Bool.not_false, if_true]
          have := ih (some m)
          simp only [List.length_cons]
          omega

/-- C1: fetchUsage tries the three transport strategies strictly in the
fixed source order (native fetch, then undici, then axios), returns the
first strategy result with a 2xx status as Success, and invokes each
strategy at most once, so a failed strategy is never re-invoked. In
particular, with two bot-challenge-classified failures followed by a 2xx
success, the third strategy's parsed body is the overall result and
exactly three strategy invocations happen (one per strategy, in order). -/
theorem C1_dispatch_order (sessionKey : String) (cfBm : Option String)
    (o1 o2 o3 : MethodOutcome) (m1 m2 : String) (d : UsageResponse)
    (h1 : runMethod o1 = .error m1) (hb1 : isBotChallenge m1 = true)
    (h2 : runMethod o2 = .error m2) (hb2 : isBotChallenge m2 = true)
    (h3 : runMethod o3 = .ok d) :
    fetchUsageModel sessionKey cfBm [o1, o2, o3] = (.success d, 3)
  ∧ (∀ outcomes, (fetchUsageModel sessionKey cfBm outcomes).2 ≤ outcomes.length)
  ∧ (∀ o rest d', runMethod o = .ok d' →
       fetchUsageModel sessionKey cfBm (o :: rest) = (.success d', 1)) := by
  refine ⟨?_, ?_, ?_⟩
  · show dispatchLoop ([o1, o2, o3].map runMethod) none = (.success d, 3)
    simp [h1, h2, h3, dispatchLoop, hb1, hb2]
  · intro outcomes
    show (dispatchLoop (outcomes.map runMethod) none).2 ≤ outcomes.length
    have h := dispatchLoop_count_le (outcomes.map runMethod) none
    simpa using h
  · intro o rest d' h
    show dispatchLoop ((o :: rest).map runMethod) none = (.success d', 1)
    simp [h, dispatchLoop]

/-- Witness for C1: two concrete 403 challenge-page responses followed by a
2xx response whose parsed body is returned, with all three strategies
invoked exactly once. -/
theorem C1_dispatch_order_witness :
    fetchUsageModel "sk-test-token" none
      [.httpResponse 403 "Just a moment" ⟨none, .undef⟩,
       .httpResponse 403 "Just a moment" ⟨none, .undef⟩,
       .httpResponse 200 "" ⟨some ⟨.number (.finite 42), .str "2025-01-01T00:00:00Z"⟩, .undef⟩]
    = (.success ⟨some ⟨.number (.finite 42), .str "2025-01-01T00:00:00Z"⟩, .undef⟩, 3) :=
  (C1_dispatch_order "sk-test-token" none
    (.httpResponse 403 "Just a moment" ⟨none, .undef⟩)
    (.httpResponse 403 "Just a moment" ⟨none, .undef⟩)
    (.httpResponse 200 "" ⟨some ⟨.number (.finite 42), .str "2025-01-01T00:00:00Z"⟩, .undef⟩)
    "HTTP 403: Just a moment" "HTTP 403: Just a moment"
    ⟨some ⟨.number (.finite 42), .str "2025-01-01T00:00:00Z"⟩, .undef⟩
    rfl (by decide) rfl (by decide) rfl).1

/-- C2: a strategy failure whose message is an HTTP-level error (contains
the literal "HTTP") with no bot-challenge marker (which rules out 403 and
challenge-page texts) aborts the dispatch immediately: that failure is the
outcome of the whole invocation, no later strategy is invoked, and this
holds whatever the remaining strategies would have produced. -/
theorem C2_http_error_aborts (sessionKey : String) (cfBm : Option String)
    (o1 : MethodOutcome) (m : String)
    (h1 : runMethod o1 = .error m) (hbot : isBotChallenge m = false)
    (hhttp : jsIncludes m "HTTP" = true) :
    ∀ rest, fetchUsageModel sessionKey cfBm (o1 :: rest) = (.failure m, 1) := by
  intro rest
  show dispatchLoop ((o1 :: rest).map runMethod) none = (.failure m, 1)
  simp [h1, dispatchLoop, hbot, hhttp]

/-- Witness for C2: an HTTP 404 from the first strategy is surfaced at once
and the second and third strategies are never attempted. -/
theorem C2_http_error_aborts_witness :
    fetchUsageModel "sk-test-token" none
      [.httpResponse 404 "Not Found" ⟨none, .undef⟩,
       .netError "unreachable strategy B", .netError "unreachable strategy C"]
    = (.failure "HTTP 404: Not Found", 1) :=
  C2_http_error_aborts "sk-test-token" none
    (.httpResponse 404 "Not Found" ⟨none, .undef⟩) "HTTP 404: Not Found"
    rfl (by decide) (by decide)
    [.netError "unreachable strategy B", .netError "unreachable strategy C"]

theorem dispatchLoop_continue (m : String) (rest : List (Except String UsageResponse))
    (le : Option String)
    (h : isBotChallenge m = true ∨ jsIncludes m "HTTP" = false) :
    dispatchLoop (.error m :: rest) le =
      ((dispatchLoop rest (some m)).1, (dispatchLoop rest (some m)).2 + 1) := by
  rcases h with h | h
  · rw [dispatchLoop]
    simp [h]
  · rw [dispatchLoop]
    by_cases hb : isBotChallenge m
    · simp [hb]
    · simp [hb, h]

/-- C7: when all three strategies fail and the last observed error's text
matches a bot-challenge marker, the single failure returned by fetchUsage
has the last error's message followed by the Cloudflare remediation block,
and therefore contains the bot-mitigation diagnostic text rather than only
the raw error text. The first two failures need only be of the kinds the
loop advances past, which is what "all three strategies fail" entails:
either bot-challenge-classified or not HTTP-level (plain transport
errors); only the last error's text has to match a bot-challenge marker. -/
theorem C7_bot_challenge_remediation (sessionKey : String) (cfBm : Option String)
    (o1 o2 o3 : MethodOutcome) (m1 m2 m3 : String)
    (h1 : runMethod o1 = .error m1)
    (hc1 : isBotChallenge m1 = true ∨ jsIncludes m1 "HTTP" = false)
    (h2 : runMethod o2 = .error m2)
    (hc2 : isBotChallenge m2 = true ∨ jsIncludes m2 "HTTP" = false)
    (h3 : runMethod o3 = .error m3) (hb3 : isBotChallenge m3 = true) :
    fetchUsageModel sessionKey cfBm [o1, o2, o3] = (.failure (m3 ++ CLOUDFLARE_HELP), 3)
  ∧ jsIncludes (m3 ++ CLOUDFLARE_HELP) "Cloudflare bot protection detected" = true := by
  constructor
  · have hne : m3 ≠ "" := by
      intro h0
      rw [h0] at hb3
      exact absurd hb3 (by decide)
    show dispatchLoop ([o1, o2, o3].map runMethod) none = (.failure (m3 ++ CLOUDFLARE_HELP), 3)
    simp only [List.map_cons, List.map_nil, h1, h2, h3]
    rw [dispatchLoop_continue m1 _ _ hc1, dispatchLoop_continue m2 _ _ hc2,
        dispatchLoop_continue m3 _ _ (Or.inl hb3)]
    simp [dispatchLoop, synthFinalError, hne, hb3]
  · unfold jsIncludes
    rw [decide_eq_true_iff, string_data_append]
    have hinf : ("Cloudflare bot protection detected" : String).data <:+: CLOUDFLARE_HELP.data := by
      decide
    rcases hinf with ⟨s, t, hst⟩
    refine ⟨m3.data ++ s, t, ?_⟩
    rw [← hst]
    simp [List.append_assoc]

/-- Witness for C7, exercising a mixed run: two plain transport errors
(neither bot-marked nor containing "HTTP"), then an HTTP 403; the returned
failure is the last message with the remediation block appended. -/
theorem C7_bot_challenge_remediation_witness :
    fetchUsageModel "sk-test-token" none
      [.netError "socket hang up", .netError "read ECONNRESET",
       .httpResponse 403 "blocked" ⟨none, .undef⟩]
    = (.failure ("HTTP 403: blocked" ++ CLOUDFLARE_HELP), 3) :=
  (C7_bot_challenge_remediation "sk-test-token" none
    (.netError "socket hang up") (.netError "read ECONNRESET")
    (.httpResponse 403 "blocked" ⟨none, .undef⟩)
    "socket hang up" "read ECONNRESET" "HTTP 403: blocked"
    rfl (Or.inr (by decide)) rfl (Or.inr (by decide)) rfl (by decide)).1

/-- C8: the synthesized exhaustion failure appends, in the
non-bot-challenge case, exactly a raw-detail excerpt truncated to at most
ERROR_DETAILS_MAX_LENGTH (500) characters; every jsSubstring truncation is
bounded by its length argument; the user-visible message always passes
through safeErrorMessage and is therefore bounded by
ERROR_MESSAGE_MAX_LENGTH (200) characters; and the dispatcher's outcome is
the same function of the strategy outcomes whatever the credential is, so
the raw credential never flows into the failure message. -/
theorem C8_failure_message_bounded (m : String)
    (hbot : isBotChallenge m = false) (hne : m ≠ "") :
    synthFinalError (some m) = m ++ jsSubstring m ERROR_DETAILS_MAX_LENGTH
  ∧ (∀ s n, (jsSubstring s n).length ≤ n)
  ∧ (∀ e, (safeErrorMessage e).length ≤ ERROR_MESSAGE_MAX_LENGTH)
  ∧ (∀ k1 k2 cfBm outcomes,
       fetchUsageModel k1 cfBm outcomes = fetchUsageModel k2 cfBm outcomes) := by
  have hlen : ∀ (s : String) (n : Nat), (jsSubstring s n).length ≤ n := by
    intro s n
    show (s.data.take n).length ≤ n
    rw [List.length_take]
    exact Nat.min_le_left _ _
  refine ⟨?_, hlen, ?_, ?_⟩
  · unfold synthFinalError
    simp [hne, hbot]
  · intro e
    cases e with
    | none => exact hlen _ _
    | some m' => exact hlen _ _
  · intro k1 k2 cfBm outcomes
    rfl

/-- Witness for C8 at a concrete transport-error message. -/
theorem C8_failure_message_bounded_witness :
    synthFinalError (some "getaddrinfo ENOTFOUND api.claude.ai")
      = "getaddrinfo ENOTFOUND api.claude.ai" ++
        jsSubstring "getaddrinfo ENOTFOUND api.claude.ai" ERROR_DETAILS_MAX_LENGTH ∧
    (safeErrorMessage (some "getaddrinfo ENOTFOUND api.claude.ai")).length ≤
      ERROR_MESSAGE_MAX_LENGTH :=
  ⟨(C8_failure_message_bounded "getaddrinfo ENOTFOUND api.claude.ai"
      (by decide) (by decide)).1,
   (C8_failure_message_bounded "getaddrinfo ENOTFOUND api.claude.ai"
      (by decide) (by decide)).2.2.1 _⟩

/-- C9 counterexample: the claim that a 2xx body is only treated as usable
when five_hour.utilization is a finite number (and resets_at parses as a
timestamp) is false on the code: the shape check of refreshAndRender only
tests typeof five.utilization === "number" and truthiness of resets_at, so
a body whose utilization is NaN — of JavaScript type number but not finite
— passes the check and is rendered, instead of producing the "unexpected
shape" outcome. -/
theorem C9_shape_check_counterexample :
    usableShape ⟨some ⟨.number .nan, .str "2025-01-01T00:00:00Z"⟩, .undef⟩ = true ∧
    isFiniteNumber (.number .nan) = false := by
  decide

/-- C9 (amended): a 2xx body is treated as usable exactly when five_hour is
present, utilization has JavaScript type number — finiteness is not
required — and resets_at is truthy — parsing as a timestamp is not
required. There is still no crash for non-finite utilization values:
clampPercent maps each of them to 0. -/
theorem C9_shape_check_amended (data : UsageResponse) :
    (usableShape data = true ↔
      ∃ five, data.five_hour = some five ∧ isNumberType five.utilization = true ∧
        truthy five.resets_at = true)
  ∧ clampPercent .nan = 0 ∧ clampPercent .inf = 0 ∧ clampPercent .negInf = 0 := by
  refine ⟨?_, rfl, rfl, rfl⟩
  cases hd : data.five_hour with
  | none => simp [usableShape, hd]
  | some five => simp [usableShape, hd]

/-- Witness for the amended C9 theorem: a body with utilization Infinity
and a non-timestamp resets_at string is usable. -/
theorem C9_shape_check_amended_witness :
    ∃ five, (⟨some ⟨.number .inf, .str "soon"⟩, .undef⟩ : UsageResponse).five_hour = some five ∧
      isNumberType five.utilization = true ∧ truthy five.resets_at = true :=
  (C9_shape_check_amended ⟨some ⟨.number .inf, .str "soon"⟩, .undef⟩).1.mp (by decide)

/-! ## Cookie cache and cookie acquirer (src/extension.ts lines 46-125) -/

/-- The module-level cookie-cache slot (src/extension.ts lines 46-47):
cfBmCookie (null initially) and cfBmCookieExpiry (a millisecond timestamp,
0 initially). -/
structure CacheState where
  cfBmCookie : Option String
  cfBmCookieExpiry : Nat
deriving DecidableEq

/-- The cache-validity test of the read path (line 56):
if (cfBmCookie && now < cfBmCookieExpiry) — the cached string must be
truthy (non-null and non-empty) and unexpired. -/
def cacheValid (st : CacheState) (now : Nat) : Bool :=
  match st.cfBmCookie with
  | some c => decide (c ≠ "") && decide (now < st.cfBmCookieExpiry)
  | none => false

/-- Cache read (lines 54-58): the cached cookie on a valid hit, absent
otherwise. -/
def cacheGet (st : CacheState) (now : Nat) : Option String :=
  if cacheValid st now then st.cfBmCookie else none

/-- Cache write (lines 83-84 and 112-113): store the value with expiry
now + CF_BM_COOKIE_CACHE_TTL_MS. -/
def cacheSet (value : String) (now : Nat) : CacheState :=
  { cfBmCookie := some value, cfBmCookieExpiry := now + CF_BM_COOKIE_CACHE_TTL_MS }

/-- Model of the JavaScript regex match cookie.match(/__cf_bm=([^;]+)/)
(lines 81 and 110): the capture group of the first position at which the
pattern matches, i.e. at least one non-semicolon character following the
literal "__cf_bm=". -/
def matchCfBm : List Char → Option (List Char)
  | [] => none
  | c :: rest =>
    if ("__cf_bm=" : String).data.isPrefixOf (c :: rest) then
      if ((c :: rest).drop (("__cf_bm=" : String).data.length)).takeWhile (fun ch => ch ≠ ';') = [] then
        matchCfBm rest
      else some (((c :: rest).drop (("__cf_bm=" : String).data.length)).takeWhile (fun ch => ch ≠ ';'))
    else matchCfBm rest

/-- Scan of set-cookie entries in order, returning the first extracted
__cf_bm value (the for loops at lines 80-87 and 109-116). -/
def scanCookies : List String → Option (List Char)
  | [] => none
  | c :: rest =>
    match matchCfBm c.data with
    | some v => some v
    | none => scanCookies rest

/-- Observable outcome of the undici priming attempt (strategy A, lines
64-88) raced against the 10 s timer: ok carries the set-cookie response
header entries (the code normalises a single string to a one-element
array; an empty list models an absent header), err the thrown error's
message (the race timer rejects with "Timeout fetching __cf_bm cookie"). -/
inductive UndiciPrimingOutcome
  | ok (setCookie : List String)
  | err (msg : String)
deriving DecidableEq

/-- Observable outcome of the fetch fallback attempt (strategy B, lines
92-120): ok carries response.headers.get("set-cookie") (none when the
header is absent), err any thrown error or abort — its message is only
logged, so it is not modelled. -/
inductive FetchPrimingOutcome
  | ok (setCookie : Option String)
  | err
deriving DecidableEq

/-- Result of one fetchCfBmCookie call: the returned cookie (none models
the null return), the cookie-cache state after the call, and which of the
two strategies were attempted. -/
structure PrimingRun where
  result : Option String
  state : CacheState
  undiciAttempted : Bool
  fetchAttempted : Bool
deriving DecidableEq

/-- fetchCfBmCookie (src/extension.ts lines 53-125). On a valid cache hit
the cached cookie is returned with no network attempt. Otherwise undici
(strategy A) runs: a successful response has its set-cookie entries
scanned, and a match is stored in the cache (value "__cf_bm=" ++ capture,
expiry now + TTL) and returned; a response without a match returns null
without trying strategy B. When strategy A throws, a message containing
"Timeout" returns null immediately (no fallback), and any other error
falls back to the fetch attempt (strategy B), whose successful response
has its comma-separated set-cookie header split, trimmed and scanned the
same way; every remaining path returns null. The function never throws. -/
def fetchCfBmCookie (st : CacheState) (now : Nat)
    (undiciOutcome : UndiciPrimingOutcome) (fetchOutcome : FetchPrimingOutcome) : PrimingRun :=
  if cacheValid st now then
    ⟨st.cfBmCookie, st, false, false⟩
  else
    match undiciOutcome with
    | .ok setCookie =>
      match scanCookies setCookie with
      | some v =>
        ⟨some ("__cf_bm=" ++ String.mk v), cacheSet ("__cf_bm=" ++ String.mk v) now, true, false⟩
      | none => ⟨none, st, true, false⟩
    | .err msg =>
      if jsIncludes msg "Timeout" then
        ⟨none, st, true, false⟩
      else
        match fetchOutcome with
        | .ok none => ⟨none, st, true, true⟩
        | .ok (some hdr) =>
          if hdr = "" then ⟨none, st, true, true⟩
          else
            match scanCookies ((hdr.splitOn ",").map jsTrim) with
            | some v =>
              ⟨some ("__cf_bm=" ++ String.mk v), cacheSet ("__cf_bm=" ++ String.mk v) now, true, true⟩
            | none => ⟨none, st, true, true⟩
        | .err => ⟨none, st, true, true⟩

theorem matchCfBm_some (l v : List Char) (h : matchCfBm l = some v) :
    v ≠ [] ∧ ';' ∉ v := by
  induction l with
  | nil => simp [matchCfBm] at h
  | cons c rest ih =>
    rw [matchCfBm] at h
    split at h
    · split at h
      · exact ih h
      · next hne =>
          injection h with h
          subst h
          refine ⟨hne, ?_⟩
          intro hmem
          have := List.mem_takeWhile_imp hmem
          simp at this
    · exact ih h

theorem scanCookies_some (cs : List String) (v : List Char) (h : scanCookies cs = some v) :
    v ≠ [] ∧ ';' ∉ v := by
  induction cs with
  | nil => simp [scanCookies] at h
  | cons c rest ih =>
    rw [scanCookies] at h
    split at h
    · next v' hm =>
        injection h with h
        subst h
        exact matchCfBm_some _ _ hm
    · exact ih h

/-- C5: cookie cache TTL semantics. A value stored at time t0 with the
fixed 5-minute TTL is returned by every read strictly before t0 + TTL and
treated as absent by every read at or after t0 + TTL; a cached cookie is
only ever returned while now < expiry; and an expired slot triggers a
fresh acquisition (the undici priming attempt runs) rather than returning
the stale value. (The stored cookie values are non-empty -- "__cf_bm=" and
a non-empty capture -- which the hypothesis reflects.) -/
theorem C5_cookie_cache_ttl (v : String) (t0 t : Nat) (hv : v ≠ "") :
    (t < t0 + CF_BM_COOKIE_CACHE_TTL_MS → cacheGet (cacheSet v t0) t = some v)
  ∧ (t0 + CF_BM_COOKIE_CACHE_TTL_MS ≤ t → cacheGet (cacheSet v t0) t = none)
  ∧ (∀ st now c, cacheGet st now = some c → now < st.cfBmCookieExpiry)
  ∧ (∀ u f, t0 + CF_BM_COOKIE_CACHE_TTL_MS ≤ t →
       (fetchCfBmCookie (cacheSet v t0) t u f).undiciAttempted = true) := by
  refine ⟨?_, ?_, ?_, ?_⟩
  · intro h
    unfold cacheGet cacheValid cacheSet
    simp [hv, h]
  · intro h
    unfold cacheGet cacheValid cacheSet
    simp [hv]
    omega
  · intro st now c h
    unfold cacheGet at h
    split at h
    · next hvalid =>
        unfold cacheValid at hvalid
        rcases hc : st.cfBmCookie with _ | c'
        · rw [hc] at hvalid
          simp at hvalid
        · rw [hc] at hvalid
          simp at hvalid
          exact hvalid.2
    · exact absurd h (by simp)
  · intro u f h
    have hcv : cacheValid (cacheSet v t0) t = false := by
      unfold cacheValid cacheSet
      simp
      omega
    unfold fetchCfBmCookie
    simp only [hcv, Bool.false_eq_true, if_false]
    cases u with
    | ok sc =>
      rcases hsc : scanCookies sc with _ | v'
      · simp [hsc]
      · simp [hsc]
    | err m =>
      by_cases ht : jsIncludes m "Timeout"
      · simp [ht]
      · simp only [if_neg ht]
        cases f with
        | err => rfl
        | ok hdrOpt =>
          cases hdrOpt with
          | none => rfl
          | some hdr =>
            by_cases hh : hdr = ""
            · simp [hh]
            · simp only [if_neg hh]
              rcases hsc : scanCookies ((hdr.splitOn ",").map jsTrim) with _ | v'
              · simp [hsc]
              · simp [hsc]

/-- Witness for C5: a value stored at t0 = 1000 is returned at t = 1500 and
absent exactly at expiry. -/
theorem C5_cookie_cache_ttl_witness :
    cacheGet (cacheSet "__cf_bm=abc" 1000) 1500 = some "__cf_bm=abc" ∧
    cacheGet (cacheSet "__cf_bm=abc" 1000) (1000 + CF_BM_COOKIE_CACHE_TTL_MS) = none :=
  ⟨(C5_cookie_cache_ttl "__cf_bm=abc" 1000 1500 (by decide)).1 (by decide),
   (C5_cookie_cache_ttl "__cf_bm=abc" 1000 (1000 + CF_BM_COOKIE_CACHE_TTL_MS)
      (by decide)).2.1 (by decide)⟩

/-- C6: fetchCfBmCookie is a total function that always returns either a
cookie value or absent (it never throws). On a cache miss, when strategy A
(undici) fails with a message containing "Timeout", the call returns
absent without attempting strategy B (the result is the same whatever
strategy B would have produced); when strategy A fails for any non-timeout
reason, strategy B is attempted. -/
theorem C6_cookie_acquirer_fallback (st : CacheState) (now : Nat) (m : String)
    (f : FetchPrimingOutcome) (hmiss : cacheValid st now = false) :
    (jsIncludes m "Timeout" = true →
       fetchCfBmCookie st now (.err m) f = ⟨none, st, true, false⟩)
  ∧ (jsIncludes m "Timeout" = false →
       (fetchCfBmCookie st now (.err m) f).fetchAttempted = true)
  ∧ (∀ u g, (fetchCfBmCookie st now u g).result = none ∨
       ∃ c, (fetchCfBmCookie st now u g).result = some c) := by
  refine ⟨?_, ?_, ?_⟩
  · intro ht
    unfold fetchCfBmCookie
    simp [hmiss, ht]
  · intro ht
    unfold fetchCfBmCookie
    simp only [hmiss, Bool.false_eq_true, if_false, ht]
    cases f with
    | err => rfl
    | ok hdrOpt =>
      cases hdrOpt with
      | none => rfl
      | some hdr =>
        by_cases hh : hdr = ""
        · simp [hh]
        · simp only [if_neg hh]
          rcases hsc : scanCookies ((hdr.splitOn ",").map jsTrim) with _ | v
          · simp [hsc]
          · simp [hsc]
  · intro u g
    rcases h : (fetchCfBmCookie st now u g).result with _ | c
    · exact Or.inl rfl
    · exact Or.inr ⟨c, rfl⟩

/-- Witness for C6: on an empty cache, a timeout of the undici attempt
returns absent with strategy B not attempted, even though strategy B would
have succeeded with a header. -/
theorem C6_cookie_acquirer_fallback_witness :
    fetchCfBmCookie ⟨none, 0⟩ 0 (.err "Timeout fetching __cf_bm cookie")
      (.ok (some "__cf_bm=wouldwork; Path=/"))
    = ⟨none, ⟨none, 0⟩, true, false⟩ :=
  (C6_cookie_acquirer_fallback ⟨none, 0⟩ 0 "Timeout fetching __cf_bm cookie"
    (.ok (some "__cf_bm=wouldwork; Path=/")) (by decide)).1 (by decide)

/-- C10: frame condition of fetchCfBmCookie. Whenever the call returns
null, the cookie-cache state (cfBmCookie, cfBmCookieExpiry) is exactly as
before the call; the state changes only when a __cf_bm value is actually
extracted, and then the stored value has the form "__cf_bm=" ++ v for a
non-empty capture v containing no semicolon, the stored expiry is
now + CF_BM_COOKIE_CACHE_TTL_MS, and that same cookie is returned. -/
theorem C10_cache_frame_condition (st : CacheState) (now : Nat)
    (u : UndiciPrimingOutcome) (f : FetchPrimingOutcome) :
    ((fetchCfBmCookie st now u f).result = none → (fetchCfBmCookie st now u f).state = st)
  ∧ ((fetchCfBmCookie st now u f).state ≠ st →
       ∃ v : List Char, v ≠ [] ∧ ';' ∉ v ∧
         (fetchCfBmCookie st now u f).state.cfBmCookie = some ("__cf_bm=" ++ String.mk v) ∧
         (fetchCfBmCookie st now u f).result = some ("__cf_bm=" ++ String.mk v) ∧
         (fetchCfBmCookie st now u f).state.cfBmCookieExpiry = now + CF_BM_COOKIE_CACHE_TTL_MS) := by
  by_cases hcv : cacheValid st now
  · have he : fetchCfBmCookie st now u f = ⟨st.cfBmCookie, st, false, false⟩ := by
      unfold fetchCfBmCookie
      simp [hcv]
    rw [he]
    exact ⟨fun _ => rfl, fun hne => absurd rfl hne⟩
  · cases u with
    | ok sc =>
      rcases hsc : scanCookies sc with _ | v
      · have he : fetchCfBmCookie st now (.ok sc) f = ⟨none, st, true, false⟩ := by
          unfold fetchCfBmCookie
          simp [hcv, hsc]
        rw [he]
        exact ⟨fun _ => rfl, fun hne => absurd rfl hne⟩
      · have he : fetchCfBmCookie st now (.ok sc) f =
            ⟨some ("__cf_bm=" ++ String.mk v), cacheSet ("__cf_bm=" ++ String.mk v) now, true, false⟩ := by
          unfold fetchCfBmCookie
          simp [hcv, hsc]
        rw [he]
        obtain ⟨hv1, hv2⟩ := scanCookies_some sc v hsc
        refine ⟨fun h => absurd h (by simp), fun _ => ⟨v, hv1, hv2, rfl, rfl, rfl⟩⟩
    | err m =>
      by_cases ht : jsIncludes m "Timeout"
      · have he : fetchCfBmCookie st now (.err m) f = ⟨none, st, true, false⟩ := by
          unfold fetchCfBmCookie
          simp [hcv, ht]
        rw [he]
        exact ⟨fun _ => rfl, fun hne => absurd rfl hne⟩
      · cases f with
        | err =>
          have he : fetchCfBmCookie st now (.err m) .err = ⟨none, st, true, true⟩ := by
            unfold fetchCfBmCookie
            simp [hcv, ht]
          rw [he]
          exact ⟨fun _ => rfl, fun hne => absurd rfl hne⟩
        | ok hdrOpt =>
          cases hdrOpt with
          | none =>
            have he : fetchCfBmCookie st now (.err m) (.ok none) = ⟨none, st, true, true⟩ := by
              unfold fetchCfBmCookie
              simp [hcv, ht]
            rw [he]
            exact ⟨fun _ => rfl, fun hne => absurd rfl hne⟩
          | some hdr =>
            by_cases hh : hdr = ""
            · have he : fetchCfBmCookie st now (.err m) (.ok (some hdr)) = ⟨none, st, true, true⟩ := by
                unfold fetchCfBmCookie
                simp [hcv, ht, hh]
              rw [he]
              exact ⟨fun _ => rfl, fun hne => absurd rfl hne⟩
            · rcases hsc : scanCookies ((hdr.splitOn ",").map jsTrim) with _ | v
              · have he : fetchCfBmCookie st now (.err m) (.ok (some hdr)) = ⟨none, st, true, true⟩ := by
                  unfold fetchCfBmCookie
                  simp [hcv, ht, hh, hsc]
                rw [he]
                exact ⟨fun _ => rfl, fun hne => absurd rfl hne⟩
              · have he : fetchCfBmCookie st now (.err m) (.ok (some hdr)) =
                    ⟨some ("__cf_bm=" ++ String.mk v), cacheSet ("__cf_bm=" ++ String.mk v) now, true, true⟩ := by
                  unfold fetchCfBmCookie
                  simp [hcv, ht, hh, hsc]
                rw [he]
                obtain ⟨hv1, hv2⟩ := scanCookies_some _ v hsc
                refine ⟨fun h => absurd h (by simp), fun _ => ⟨v, hv1, hv2, rfl, rfl, rfl⟩⟩

/-- Witness for C10: a failing run leaves the cache untouched, and a run
that extracts a cookie from a Set-Cookie entry stores exactly the
well-formed "__cf_bm=..." value. -/
theorem C10_cache_frame_condition_witness :
    (fetchCfBmCookie ⟨none, 0⟩ 5 (.err "socket hang up") .err).state = ⟨none, 0⟩ ∧
    (∃ v : List Char, v ≠ [] ∧ ';' ∉ v ∧
       (fetchCfBmCookie ⟨none, 0⟩ 5 (.ok ["__cf_bm=tok123; Path=/"]) .err).state.cfBmCookie
         = some ("__cf_bm=" ++ String.mk v) ∧
       (fetchCfBmCookie ⟨none, 0⟩ 5 (.ok ["__cf_bm=tok123; Path=/"]) .err).result
         = some ("__cf_bm=" ++ String.mk v) ∧
       (fetchCfBmCookie ⟨none, 0⟩ 5 (.ok ["__cf_bm=tok123; Path=/"]) .err).state.cfBmCookieExpiry
         = 5 + CF_BM_COOKIE_CACHE_TTL_MS) :=
  ⟨(C10_cache_frame_condition ⟨none, 0⟩ 5 (.err "socket hang up") .err).1 (by decide),
   (C10_cache_frame_condition ⟨none, 0⟩ 5 (.ok ["__cf_bm=tok123; Path=/"]) .err).2 (by decide)⟩
